import Mathlib

/-!
Verification of the adaptive text-encoding detection and range-decoding
engine of the vscode-read-plugin repository (src/src/utils/encodingUtils.ts),
as a shallow embedding in Lean 4.

Modelling conventions:
* A byte buffer is a `List Nat` of byte values (each below 256 in practice).
* A JavaScript string is modelled as its list of UTF-16 code units
  (`JSStr := List Nat`), matching the fact that the quality scorer iterates
  `charCodeAt` over individual code units.
* Scores are exact rationals; the decimal literals of the source
  (0.5, 0.8, 0.15, 0.08, 0.25, 0.3) become the corresponding rationals.
* File I/O (fs.openSync / fs.readSync) is modelled by an
  `Option (List Nat)` file content (`none` = the open call throws, i.e.
  missing or unreadable file) together with the documented Node semantics of
  positioned reads: a read past end-of-file transfers zero bytes and leaves
  the zero-initialised buffer untouched; it does not throw.
* The external decoding libraries are modelled as follows.  Node
  `Buffer.prototype.toString` supports only utf8, utf16le/ucs2,
  latin1/binary, ascii, hex (and base64 variants, which this code never
  reaches); any other name throws, modelled as `none`.  iconv-lite supports
  every encoding name mentioned by the source except utf8mb4, and its decode
  never throws for a supported encoding; the GB-family decoders
  (gb2312/gbk/gb18030) need large mapping tables, so they are parameters
  (`GbDecoders`) of the model, while the Unicode / single-byte codecs are
  given concretely below.  iconv-lite strips a leading BOM character when
  decoding utf8/utf16 (its default stripBOM behaviour); Node toString does
  not.
-/

set_option autoImplicit false

namespace EncodingUtils

/-- A JavaScript string, as its list of UTF-16 code units. -/
abbrev JSStr := List Nat

/-! ## Quality scorer (evaluateDecodingQuality, source lines 156-203) -/

/-- One iteration of the character-classification loop of
`evaluateDecodingQuality`: the accumulator is
`(validChars, controlChars, chineseChars)` and `code` is `charCodeAt` of the
current character.  Mirrors the if/else-if chain of the source. -/
def scoreStep (acc : Nat × Nat × Nat) (code : Nat) : Nat × Nat × Nat :=
  if code = 0 then
    acc
  else if code < 32 ∧ code ≠ 9 ∧ code ≠ 10 ∧ code ≠ 13 then
    (acc.1, acc.2.1 + 1, acc.2.2)
  else if 0x4E00 ≤ code ∧ code ≤ 0x9FFF then
    (acc.1 + 1, acc.2.1, acc.2.2 + 1)
  else if (32 ≤ code ∧ code ≤ 126) ∨ (128 ≤ code ∧ code ≤ 255) then
    (acc.1 + 1, acc.2.1, acc.2.2)
  else
    acc

/-- `evaluateDecodingQuality` from the source: empty content scores 0;
otherwise the counters are folded over the code units and the final score is
`validRatio + chineseRatio * 0.5 - controlRatio * 0.8` clamped to [0,1] by
`Math.max(0, Math.min(1, score))`. -/
def evaluateDecodingQuality (content : JSStr) : ℚ :=
  if content.length = 0 then 0
  else
    let c := content.foldl scoreStep (0, 0, 0)
    let totalChars : ℚ := (content.length : ℚ)
    let validRatio : ℚ := (c.1 : ℚ) / totalChars
    let controlRatio : ℚ := (c.2.1 : ℚ) / totalChars
    let chineseRatio : ℚ := (c.2.2 : ℚ) / totalChars
    max 0 (min 1 (validRatio + chineseRatio * (0.5 : ℚ) - controlRatio * (0.8 : ℚ)))

/-! ## Concrete decoders for the Unicode / single-byte codecs -/

/-- WHATWG / Node UTF-8 decoding to UTF-16 code units, replacing each
maximal invalid subpart with U+FFFD; supplementary code points become a
surrogate pair.  This is the behaviour of both `Buffer.toString` with utf8
and of the iconv-lite utf8 codec (before BOM stripping). -/
def utf8Decode : List Nat → List Nat
  | [] => []
  | b :: rest =>
    if b < 0x80 then
      b :: utf8Decode rest
    else if b < 0xC2 then
      0xFFFD :: utf8Decode rest
    else if b ≤ 0xDF then
      match rest with
      | [] => [0xFFFD]
      | b2 :: rest2 =>
        if 0x80 ≤ b2 ∧ b2 ≤ 0xBF then
          ((b - 0xC0) * 64 + (b2 - 0x80)) :: utf8Decode rest2
        else
          0xFFFD :: utf8Decode (b2 :: rest2)
    else if b ≤ 0xEF then
      match rest with
      | [] => [0xFFFD]
      | b2 :: rest2 =>
        if (if b = 0xE0 then 0xA0 else 0x80) ≤ b2 ∧ b2 ≤ (if b = 0xED then 0x9F else 0xBF) then
          match rest2 with
          | [] => [0xFFFD]
          | b3 :: rest3 =>
            if 0x80 ≤ b3 ∧ b3 ≤ 0xBF then
              ((b - 0xE0) * 4096 + (b2 - 0x80) * 64 + (b3 - 0x80)) :: utf8Decode rest3
            else
              0xFFFD :: utf8Decode (b3 :: rest3)
        else
          0xFFFD :: utf8Decode (b2 :: rest2)
    else if b ≤ 0xF4 then
      match rest with
      | [] => [0xFFFD]
      | b2 :: rest2 =>
        if (if b = 0xF0 then 0x90 else 0x80) ≤ b2 ∧ b2 ≤ (if b = 0xF4 then 0x8F else 0xBF) then
          match rest2 with
          | [] => [0xFFFD]
          | b3 :: rest3 =>
            if 0x80 ≤ b3 ∧ b3 ≤ 0xBF then
              match rest3 with
              | [] => [0xFFFD]
              | b4 :: rest4 =>
                if 0x80 ≤ b4 ∧ b4 ≤ 0xBF then
                  let cp := (b - 0xF0) * 262144 + (b2 - 0x80) * 4096 + (b3 - 0x80) * 64 + (b4 - 0x80)
                  (0xD800 + (cp - 0x10000) / 1024) :: (0xDC00 + (cp - 0x10000) % 1024)
                    :: utf8Decode rest4
                else
                  0xFFFD :: utf8Decode (b4 :: rest4)
            else
              0xFFFD :: utf8Decode (b3 :: rest3)
        else
          0xFFFD :: utf8Decode (b2 :: rest2)
    else
      0xFFFD :: utf8Decode rest

/-- UTF-16LE decoding: consecutive byte pairs, little-endian; a trailing
lone byte is dropped (Node `ucs2` behaviour, shared by iconv-lite). -/
def utf16leDecode : List Nat → List Nat
  | a :: b :: rest => (a + 256 * b) :: utf16leDecode rest
  | _ => []

/-- UTF-16BE decoding (iconv-lite codec): consecutive byte pairs,
big-endian; a trailing lone byte is dropped. -/
def utf16beDecode : List Nat → List Nat
  | a :: b :: rest => (256 * a + b) :: utf16beDecode rest
  | _ => []

/-- Code unit of one lowercase hexadecimal digit. -/
def hexDigit (n : Nat) : Nat :=
  if n < 10 then 48 + n else 87 + n

/-- `buffer.toString(hex)`: each byte rendered as two lowercase hex
digits. -/
def hexString : List Nat → JSStr
  | [] => []
  | b :: rest => hexDigit (b / 16 % 16) :: hexDigit (b % 16) :: hexString rest

/-- iconv-lite utf8/utf16 decoding strips a leading U+FEFF. -/
def stripLeadBOM (l : JSStr) : JSStr :=
  match l with
  | 0xFEFF :: rest => rest
  | _ => l

/-! ## The external decoding environment -/

/-- The GB-family decoders of iconv-lite (gb2312 / gbk / gb18030).  Their
mapping tables are external data; the model keeps them abstract.  Each is a
total function: iconv-lite decoding never throws for a supported encoding
(invalid sequences become replacement characters). -/
structure GbDecoders where
  gb2312 : List Nat → JSStr
  gbk : List Nat → JSStr
  gb18030 : List Nat → JSStr

/-- `iconv.encodingExists`, restricted to the encoding names the source
mentions.  All of them exist in iconv-lite except utf8mb4. -/
def iconvExists (e : String) : Bool :=
  e = "gb2312" ∨ e = "gbk" ∨ e = "gb18030" ∨ e = "utf8" ∨ e = "utf16le" ∨
    e = "utf16be" ∨ e = "latin1" ∨ e = "ascii" ∨ e = "hex"

/-- `iconv.decode` on the supported encodings (total). -/
def iconvDecode (env : GbDecoders) (e : String) (buf : List Nat) : JSStr :=
  if e = "gb2312" then env.gb2312 buf
  else if e = "gbk" then env.gbk buf
  else if e = "gb18030" then env.gb18030 buf
  else if e = "utf8" then stripLeadBOM (utf8Decode buf)
  else if e = "utf16le" then stripLeadBOM (utf16leDecode buf)
  else if e = "utf16be" then stripLeadBOM (utf16beDecode buf)
  else if e = "latin1" then buf
  else if e = "ascii" then buf.map (· % 128)
  else hexString buf

/-- `buffer.toString(e)` for a Node `BufferEncoding` name; `none` models the
TypeError thrown for an unknown encoding (in particular gbk, gb18030,
utf16be and utf8mb4 are not Node buffer encodings). -/
def nodeToString (e : String) (buf : List Nat) : Option JSStr :=
  if e = "utf8" then some (utf8Decode buf)
  else if e = "utf16le" ∨ e = "ucs2" then some (utf16leDecode buf)
  else if e = "latin1" ∨ e = "binary" then some buf
  else if e = "ascii" then some (buf.map (· % 128))
  else if e = "hex" then some (hexString buf)
  else none

/-- The decode step shared by `readFileWithEncoding` and
`tryOtherEncodings`: use iconv-lite when the encoding exists there,
otherwise `buffer.toString`; `none` means the attempt threw (and the source
catches it). -/
def decodeVia (env : GbDecoders) (buf : List Nat) (e : String) : Option JSStr :=
  if iconvExists e then some (iconvDecode env e buf) else nodeToString e buf

/-! ## File reads -/

/-- Positioned read of `len` bytes at offset `start` into a zero-initialised
buffer of length `len` (`Buffer.alloc(len)` then `fs.readSync`): the bytes
available in the file are copied, the rest of the buffer keeps its zero
fill.  Reading at or past end-of-file transfers nothing and does not
throw. -/
def readWindow (content : List Nat) (start len : Nat) : List Nat :=
  let got := (content.drop start).take len
  got ++ List.replicate (len - got.length) 0

/-! ## Range decoder (readFileWithEncoding / tryOtherEncodings) -/

/-- The candidate list of `tryOtherEncodings`, verbatim from the source
(GB family first, utf8mb4 last). -/
def fallbackEncodings : List String :=
  ["gb2312", "gbk", "gb18030", "utf8", "utf16le", "utf16be", "latin1", "ascii", "utf8mb4"]

/-- One iteration of the `encodings.forEach` loop of `tryOtherEncodings`:
the accumulator is `(bestContent, bestScore, bestEncoding)`; the original
encoding is skipped, a failed decode is skipped, and only a strictly
greater score displaces the current best. -/
def tryStep (env : GbDecoders) (buf : List Nat) (orig : String)
    (best : JSStr × ℚ × String) (enc : String) : JSStr × ℚ × String :=
  if enc = orig then best
  else
    match decodeVia env buf enc with
    | none => best
    | some content =>
      if best.2.1 < evaluateDecodingQuality content then
        (content, evaluateDecodingQuality content, enc)
      else best

/-- `tryOtherEncodings` with its full accumulator
`(bestContent, bestScore, bestEncoding)`: the fold starts from the bytes
rendered in hexadecimal with score 0 under the terminal hex label. -/
def tryOtherEncodingsFull (env : GbDecoders) (buf : List Nat) (orig : String) :
    JSStr × ℚ × String :=
  fallbackEncodings.foldl (tryStep env buf orig) (hexString buf, 0, "hex")

/-- `tryOtherEncodings` observable outcome: the returned text together with
the label tracked in the `bestEncoding` local (the `encodingUsed` of the
DecodeResult of the specification). -/
def tryOtherEncodings (env : GbDecoders) (buf : List Nat) (orig : String) :
    JSStr × String :=
  let r := tryOtherEncodingsFull env buf orig
  (r.1, r.2.2)

/-- The decoding part of `readFileWithEncoding`, after the bytes have been
read: decode under the hint encoding; on a throw (`none`) or a quality not
above 0.5, run `tryOtherEncodings`; otherwise return the hint decoding with
the hint as the encoding used. -/
def readBody (env : GbDecoders) (buf : List Nat) (encoding : String) : JSStr × String :=
  match decodeVia env buf encoding with
  | some content =>
    if (0.5 : ℚ) < evaluateDecodingQuality content then (content, encoding)
    else tryOtherEncodings env buf encoding
  | none => tryOtherEncodings env buf encoding

/-- Errors that escape `readFileWithEncoding`: the RangeError thrown by
`Buffer.alloc` on a negative size, and the I/O error thrown by
`fs.openSync` on a missing or unreadable file.  Both are re-thrown by the
outer catch of the source. -/
inductive ReadErr where
  | rangeError : ReadErr
  | ioError : ReadErr
deriving DecidableEq, Repr

/-- `readFileWithEncoding(filePath, start, end, encoding)`.  The file is
`none` when opening it throws.  `Buffer.alloc(end - start)` runs first and
throws on a negative length, before the file is opened; then `fs.readSync`
fills the window (zero-fill past end-of-file, no throw); the rest never
throws. -/
def readFileWithEncoding (env : GbDecoders) (file : Option (List Nat))
    (start : Nat) (stop : Int) (encoding : String) :
    Except ReadErr (JSStr × String) :=
  if stop - (start : Int) < 0 then .error .rangeError
  else
    match file with
    | none => .error .ioError
    | some content =>
      .ok (readBody env (readWindow content start (stop - (start : Int)).toNat) encoding)

/-! ## Encoding detector (detectEncoding, source lines 49-145) -/

/-- The statistical loop of `detectEncoding` over the sampled bytes:
returns `(highByteCount, possibleChinesePairs)`.  A byte at or above 0x80
increments the high-byte count; when it is a GBK lead (0x81-0xFE) followed
by a GBK trail (0x40-0xFE) the pair is counted and the loop skips the trail
byte (`i++`), so a skipped trail byte is inspected by neither counter. -/
def sampleStats : List Nat → Nat × Nat
  | [] => (0, 0)
  | [b] => (if 0x80 ≤ b then 1 else 0, 0)
  | b :: b2 :: rest =>
    if 0x80 ≤ b then
      if 0x81 ≤ b ∧ b ≤ 0xFE ∧ 0x40 ≤ b2 ∧ b2 ≤ 0xFE then
        let r := sampleStats rest
        (r.1 + 1, r.2 + 1)
      else
        let r := sampleStats (b2 :: rest)
        (r.1 + 1, r.2)
    else
      sampleStats (b2 :: rest)

/-- The `encodingsToTry.forEach` fold of the trial-decode step: each
candidate is decoded with `sampleBuffer.toString(enc)` (Node, so gbk and
gb18030 throw and are skipped) and scored; accumulator is
`(bestEncoding, bestScore)` starting from `(utf8, 0)`. -/
def trialFold (padded : List Nat) : String × ℚ :=
  ["utf8", "gbk", "gb18030"].foldl
    (fun best enc =>
      match nodeToString enc padded with
      | none => best
      | some content =>
        let s := evaluateDecodingQuality content
        if best.2 < s then (enc, s) else best)
    ("utf8", 0)

/-- The trial-decode step of `detectEncoding`: return the best encoding when
it is not utf8 and its score exceeds 0.3, else fall through to utf8. -/
def trialStep (padded : List Nat) : String :=
  let r := trialFold padded
  if r.1 ≠ "utf8" ∧ (0.3 : ℚ) < r.2 then r.1 else "utf8"

/-- `detectEncoding` on the content of an openable file: BOM checks on the
4-byte zero-filled header window, then the statistical CJK heuristic over
up to 2048 sampled bytes, then the trial decode over the full
zero-padded 2048-byte sample buffer, then utf8. -/
def detectFromContent (content : List Nat) : String :=
  let bom := readWindow content 0 4
  if bom.getD 0 0 = 0xEF ∧ bom.getD 1 0 = 0xBB ∧ bom.getD 2 0 = 0xBF then "utf8"
  else if bom.getD 0 0 = 0xFF ∧ bom.getD 1 0 = 0xFE then "utf16le"
  else if bom.getD 0 0 = 0xFE ∧ bom.getD 1 0 = 0xFF then "utf16be"
  else
    let sample := content.take 2048
    if 0 < sample.length then
      let stats := sampleStats sample
      let totalBytes : ℚ := (sample.length : ℚ)
      let highByteRatio : ℚ := (stats.1 : ℚ) / totalBytes
      let chinesePairRatio : ℚ := (stats.2 : ℚ) / ((max 1 (sample.length / 2) : Nat) : ℚ)
      if (0.15 : ℚ) < highByteRatio ∧ (0.08 : ℚ) < chinesePairRatio then "gbk"
      else if (0.25 : ℚ) < highByteRatio then "gbk"
      else trialStep (sample ++ List.replicate (2048 - sample.length) 0)
    else "utf8"

/-- `detectEncoding(filePath)`: any I/O error is caught and yields the utf8
fallback. -/
def detectEncoding (file : Option (List Nat)) : String :=
  match file with
  | none => "utf8"
  | some content => detectFromContent content

/-! ## Claim-side counting predicates for the quality scorer -/

/-- Claim-side count of valid characters: CJK Unified Ideographs, printable
ASCII, and the Latin-1 supplement range. -/
def specValidCount (s : JSStr) : Nat :=
  s.countP (fun c => decide ((0x4E00 ≤ c ∧ c ≤ 0x9FFF) ∨ (32 ≤ c ∧ c ≤ 126) ∨ (128 ≤ c ∧ c ≤ 255)))

/-- Claim-side count of control characters: codes below 32 other than
9, 10, 13, with NUL ignored. -/
def specControlCount (s : JSStr) : Nat :=
  s.countP (fun c => decide (c ≠ 0 ∧ c < 32 ∧ c ≠ 9 ∧ c ≠ 10 ∧ c ≠ 13))

/-- Claim-side count of Chinese characters: the CJK Unified Ideographs
block. -/
def specChineseCount (s : JSStr) : Nat :=
  s.countP (fun c => decide (0x4E00 ≤ c ∧ c ≤ 0x9FFF))

/-- Claim-side high-byte count of the statistical heuristic, as claim C3
words it: the number of sampled bytes at or above 0x80, with no
pair-consumption skip. -/
def claimHighByteCount (sample : List Nat) : Nat :=
  sample.countP (fun b => decide (0x80 ≤ b))

/-- Claim-side fallback priority list, as claim C6 words it: the GB family
first, then utf8, utf16le, utf16be, latin1, ascii — without the utf8mb4
entry of the source, which neither Node nor iconv-lite can decode. -/
def specFallbackList : List String :=
  ["gb2312", "gbk", "gb18030", "utf8", "utf16le", "utf16be", "latin1", "ascii"]

/-- Claim-side fallback search, as claim C6 words it: fold the candidate
list in order, skip the hint, start from the hex rendering with score 0
under the terminal hex label, and let only a strictly greater score
displace the current best. -/
def specFallbackSearch (env : GbDecoders) (buf : List Nat) (orig : String) :
    JSStr × ℚ × String :=
  specFallbackList.foldl (tryStep env buf orig) (hexString buf, 0, "hex")

/-- Claim-side trial decode, as claim C2 words it: decode the sample under
each of utf8, gbk and gb18030 — with genuine decoders for the GB family,
supplied as parameters — score each with the quality scorer, and return the
highest-scoring non-utf8 candidate whenever that score exceeds 0.3,
otherwise the default utf8. -/
def specTrialDecode (env : GbDecoders) (sample : List Nat) : String :=
  let sGbk := evaluateDecodingQuality (env.gbk sample)
  let sGb18030 := evaluateDecodingQuality (env.gb18030 sample)
  let best := if sGbk < sGb18030 then ("gb18030", sGb18030) else ("gbk", sGbk)
  if (0.3 : ℚ) < best.2 then best.1 else "utf8"

/-- A concrete instantiation of the GB-family decoders, used by the
witnesses and counterexamples: it agrees with the real GBK/GB18030 codecs
on the ASCII bytes they decode transparently and maps every other byte to
the replacement character. -/
def concreteGb : GbDecoders :=
  ⟨fun l => l.map (fun b => if b < 0x80 then b else 0xFFFD),
   fun l => l.map (fun b => if b < 0x80 then b else 0xFFFD),
   fun l => l.map (fun b => if b < 0x80 then b else 0xFFFD)⟩

/-! ## Helper lemmas -/

lemma scoreStep_eq (acc : Nat × Nat × Nat) (h : Nat) :
    scoreStep acc h =
      (acc.1 + (if (0x4E00 ≤ h ∧ h ≤ 0x9FFF) ∨ (32 ≤ h ∧ h ≤ 126) ∨ (128 ≤ h ∧ h ≤ 255) then 1 else 0),
       acc.2.1 + (if h ≠ 0 ∧ h < 32 ∧ h ≠ 9 ∧ h ≠ 10 ∧ h ≠ 13 then 1 else 0),
       acc.2.2 + (if 0x4E00 ≤ h ∧ h ≤ 0x9FFF then 1 else 0)) := by
  unfold scoreStep
  split_ifs <;> simp only [Prod.ext_iff, Prod.fst, Prod.snd] <;> simp <;> omega

lemma foldl_scoreStep (s : JSStr) :
    ∀ acc : Nat × Nat × Nat,
      s.foldl scoreStep acc =
        (acc.1 + specValidCount s, acc.2.1 + specControlCount s, acc.2.2 + specChineseCount s) := by
  induction s with
  | nil => intro acc; simp [specValidCount, specControlCount, specChineseCount]
  | cons h t ih =>
    intro acc
    rw [List.foldl_cons, ih, scoreStep_eq]
    simp only [specValidCount, specControlCount, specChineseCount, List.countP_cons]
    refine Prod.ext ?_ (Prod.ext ?_ ?_) <;>
      simp only [decide_eq_true_eq] <;> split <;> simp <;> omega

lemma evaluateDecodingQuality_eq (s : JSStr) (h : s ≠ []) :
    evaluateDecodingQuality s =
      max 0 (min 1 ((specValidCount s : ℚ) / (s.length : ℚ)
        + ((specChineseCount s : ℚ) / (s.length : ℚ)) * (0.5 : ℚ)
        - ((specControlCount s : ℚ) / (s.length : ℚ)) * (0.8 : ℚ))) := by
  unfold evaluateDecodingQuality
  rw [if_neg (fun hl => h (List.length_eq_zero.mp hl)), foldl_scoreStep]
  norm_num

lemma evaluateDecodingQuality_nonneg (s : JSStr) : 0 ≤ evaluateDecodingQuality s := by
  unfold evaluateDecodingQuality
  split
  · exact le_refl 0
  · exact le_max_left 0 _

lemma evaluateDecodingQuality_le_one (s : JSStr) : evaluateDecodingQuality s ≤ 1 := by
  unfold evaluateDecodingQuality
  split
  · exact zero_le_one
  · exact max_le zero_le_one (min_le_left 1 _)

lemma trialFold_fst (p : List Nat) : (trialFold p).1 = "utf8" := by
  have h1 : nodeToString "gbk" p = none := rfl
  have h2 : nodeToString "gb18030" p = none := rfl
  have h3 : nodeToString "utf8" p = some (utf8Decode p) := rfl
  unfold trialFold
  simp only [List.foldl, h1, h2, h3]
  split <;> rfl

lemma trialStep_utf8 (p : List Nat) : trialStep p = "utf8" := by
  simp [trialStep, trialFold_fst p]

lemma sampleStats_low (l : List Nat) (h : ∀ b ∈ l, b < 0x80) : sampleStats l = (0, 0) := by
  induction l using sampleStats.induct with
  | case1 => rfl
  | case2 b =>
    have hb := h b (by simp)
    simp only [sampleStats]
    rw [if_neg (by omega)]
  | case3 b b2 rest hb hpair ih =>
    have hb2 := h b (by simp)
    omega
  | case4 b b2 rest hb hpair ih =>
    have hb2 := h b (by simp)
    omega
  | case5 b b2 rest hb ih =>
    simp only [sampleStats]
    rw [if_neg hb]
    exact ih (fun x hx => h x (List.mem_cons_of_mem _ hx))

section TryFold

variable (env : GbDecoders) (buf : List Nat) (orig : String)

lemma tryStep_utf8mb4 (acc : JSStr × ℚ × String) :
    tryStep env buf orig acc "utf8mb4" = acc := by
  unfold tryStep
  split
  · rfl
  · rw [show decodeVia env buf "utf8mb4" = none from rfl]

lemma tryFold_score_mono (l : List String) :
    ∀ acc : JSStr × ℚ × String,
      acc.2.1 ≤ (l.foldl (tryStep env buf orig) acc).2.1 := by
  induction l with
  | nil => intro acc; exact le_refl _
  | cons e t ih =>
    intro acc
    rw [List.foldl_cons]
    refine le_trans ?_ (ih (tryStep env buf orig acc e))
    unfold tryStep
    split
    · exact le_refl _
    · split
      · exact le_refl _
      · split
        · next hlt => exact le_of_lt hlt
        · exact le_refl _

lemma tryStep_ub (acc : JSStr × ℚ × String) (e : String) (hne : e ≠ orig)
    (d : JSStr) (hd : decodeVia env buf e = some d) :
    evaluateDecodingQuality d ≤ (tryStep env buf orig acc e).2.1 := by
  unfold tryStep
  rw [if_neg hne]
  split
  · next hnone => rw [hnone] at hd; exact absurd hd (by simp)
  · next c hc =>
    rw [hc] at hd
    injection hd with hdc
    subst hdc
    split
    · exact le_refl _
    · next hnlt => exact le_of_not_lt hnlt

lemma tryFold_ub (l : List String) :
    ∀ acc : JSStr × ℚ × String, ∀ e ∈ l, e ≠ orig → ∀ d, decodeVia env buf e = some d →
      evaluateDecodingQuality d ≤ (l.foldl (tryStep env buf orig) acc).2.1 := by
  induction l with
  | nil => intro acc e he; exact absurd he (List.not_mem_nil e)
  | cons x t ih =>
    intro acc e he hne d hd
    rw [List.foldl_cons]
    rcases List.mem_cons.mp he with rfl | ht
    · exact le_trans (tryStep_ub env buf orig acc e hne d hd)
        (tryFold_score_mono env buf orig t _)
    · exact ih _ e ht hne d hd

lemma tryFold_stay (l : List String) :
    ∀ acc : JSStr × ℚ × String,
      (∀ e ∈ l, ∀ d, decodeVia env buf e = some d → evaluateDecodingQuality d ≤ acc.2.1) →
      l.foldl (tryStep env buf orig) acc = acc := by
  induction l with
  | nil => intro acc _; rfl
  | cons x t ih =>
    intro acc h
    rw [List.foldl_cons]
    have hx : tryStep env buf orig acc x = acc := by
      unfold tryStep
      split
      · rfl
      · split
        · rfl
        · next d hd =>
          rw [if_neg (not_lt.mpr (h x (by simp) d hd))]
    rw [hx]
    exact ih acc (fun e he d hd => h e (List.mem_cons_of_mem _ he) d hd)

end TryFold

lemma tryOtherEncodingsFull_eq_spec (env : GbDecoders) (buf : List Nat) (orig : String) :
    tryOtherEncodingsFull env buf orig = specFallbackSearch env buf orig := by
  unfold tryOtherEncodingsFull specFallbackSearch
  rw [show fallbackEncodings = specFallbackList ++ ["utf8mb4"] from rfl,
    List.foldl_append]
  exact tryStep_utf8mb4 env buf orig _

lemma countP_replicate (p : Nat → Bool) (n a : Nat) :
    (List.replicate n a).countP p = if p a then n else 0 := by
  induction n with
  | zero => simp
  | succ k ih => simp [List.replicate_succ, List.countP_cons, ih]; split <;> simp

lemma q_nul_single : evaluateDecodingQuality [0] = 0 := by
  rw [evaluateDecodingQuality_eq [0] (by decide)]
  norm_num [specValidCount, specControlCount, specChineseCount]

lemma q_97 : evaluateDecodingQuality [97] = 1 := by
  rw [evaluateDecodingQuality_eq [97] (by decide)]
  norm_num [specValidCount, specControlCount, specChineseCount]

lemma q_replicate_97 (n : Nat) (hn : 0 < n) :
    evaluateDecodingQuality (List.replicate n 97) = 1 := by
  rw [evaluateDecodingQuality_eq _ (by simp; omega)]
  rw [specValidCount, specControlCount, specChineseCount]
  norm_num [countP_replicate]
  rw [div_self (by positivity : ((n : ℚ)) ≠ 0)]
  norm_num

lemma readBody_slow (env : GbDecoders) (buf : List Nat) (enc : String) (c : JSStr)
    (h : decodeVia env buf enc = some c) (hq : ¬ (0.5 : ℚ) < evaluateDecodingQuality c) :
    readBody env buf enc = tryOtherEncodings env buf enc := by
  unfold readBody
  rw [h]
  exact if_neg hq

lemma readBody_none (env : GbDecoders) (buf : List Nat) (enc : String)
    (h : decodeVia env buf enc = none) :
    readBody env buf enc = tryOtherEncodings env buf enc := by
  unfold readBody
  rw [h]

lemma tryOther_hex_of_all_le (env : GbDecoders) (buf : List Nat) (orig : String)
    (hall : ∀ e ∈ fallbackEncodings, ∀ d, decodeVia env buf e = some d →
      evaluateDecodingQuality d ≤ 0) :
    tryOtherEncodings env buf orig = (hexString buf, "hex") := by
  unfold tryOtherEncodings
  rw [show tryOtherEncodingsFull env buf orig = (hexString buf, 0, "hex") from
    tryFold_stay env buf orig fallbackEncodings _ hall]

lemma all_le_zero_buf0 :
    ∀ e ∈ fallbackEncodings, (decodeVia concreteGb [0] e).elim True
      (fun c => evaluateDecodingQuality c ≤ 0) := by
  intro e he
  fin_cases he
  · exact le_of_eq q_nul_single
  · exact le_of_eq q_nul_single
  · exact le_of_eq q_nul_single
  · exact le_of_eq q_nul_single
  · exact le_refl 0
  · exact le_refl 0
  · exact le_of_eq q_nul_single
  · exact le_of_eq q_nul_single
  · exact trivial

lemma half_lt_q_97 : (0.5 : ℚ) < evaluateDecodingQuality [97] := by
  rw [q_97]
  norm_num

/-- When no BOM matches, the sample is non-empty and both statistical rules
fail, detectEncoding falls through to the trial-decode step, and that step
always yields utf8 (Node toString cannot decode gbk or gb18030, so only the
utf8 candidate is ever scored and the initial best label utf8 survives). -/
lemma detect_step3_utf8 (content : List Nat)
    (hb1 : ¬((readWindow content 0 4).getD 0 0 = 0xEF ∧
      (readWindow content 0 4).getD 1 0 = 0xBB ∧
      (readWindow content 0 4).getD 2 0 = 0xBF))
    (hb2 : ¬((readWindow content 0 4).getD 0 0 = 0xFF ∧
      (readWindow content 0 4).getD 1 0 = 0xFE))
    (hb3 : ¬((readWindow content 0 4).getD 0 0 = 0xFE ∧
      (readWindow content 0 4).getD 1 0 = 0xFF))
    (hlen : 0 < (content.take 2048).length)
    (hc1 : ¬((0.15 : ℚ) < ((sampleStats (content.take 2048)).1 : ℚ) /
        (((content.take 2048).length : Nat) : ℚ) ∧
      (0.08 : ℚ) < ((sampleStats (content.take 2048)).2 : ℚ) /
        ((max 1 ((content.take 2048).length / 2) : Nat) : ℚ)))
    (hc2 : ¬((0.25 : ℚ) < ((sampleStats (content.take 2048)).1 : ℚ) /
        (((content.take 2048).length : Nat) : ℚ))) :
    detectFromContent content = "utf8" := by
  simp only [detectFromContent]
  rw [if_neg hb1, if_neg hb2, if_neg hb3, if_pos hlen, if_neg hc1, if_neg hc2]
  exact trialStep_utf8 _

lemma sampleStats_replicate_97 :
    sampleStats ((List.replicate 2048 97).take 2048) = (0, 0) :=
  sampleStats_low _ (fun b hb => by
    have := List.eq_of_mem_replicate (List.mem_of_mem_take hb)
    omega)

lemma c2_witness_cond :
    ¬((0.15 : ℚ) < ((sampleStats ((List.replicate 8 0x41).take 2048)).1 : ℚ) /
        ((((List.replicate 8 0x41).take 2048).length : Nat) : ℚ) ∧
      (0.08 : ℚ) < ((sampleStats ((List.replicate 8 0x41).take 2048)).2 : ℚ) /
        ((max 1 (((List.replicate 8 0x41).take 2048).length / 2) : Nat) : ℚ)) ∧
    ¬((0.25 : ℚ) < ((sampleStats ((List.replicate 8 0x41).take 2048)).1 : ℚ) /
        ((((List.replicate 8 0x41).take 2048).length : Nat) : ℚ)) := by
  rw [show sampleStats ((List.replicate 8 0x41).take 2048) = (0, 0) from rfl,
    show ((List.replicate 8 0x41).take 2048).length = 8 from rfl]
  norm_num

lemma c3_witness_cond :
    (0.15 : ℚ) < ((sampleStats ((List.replicate 16 0x81).take 2048)).1 : ℚ) /
        ((((List.replicate 16 0x81).take 2048).length : Nat) : ℚ) ∧
      (0.08 : ℚ) < ((sampleStats ((List.replicate 16 0x81).take 2048)).2 : ℚ) /
        ((max 1 (((List.replicate 16 0x81).take 2048).length / 2) : Nat) : ℚ) := by
  rw [show sampleStats ((List.replicate 16 0x81).take 2048) = (8, 8) from rfl,
    show ((List.replicate 16 0x81).take 2048).length = 16 from rfl]
  norm_num

/-! ## Claims -/

/-- C8: detectEncoding never fails: on any I/O error (a file that cannot be
opened or read, modelled as `none`) it returns the fallback label utf8
instead of raising; on readable content it is the total function
`detectFromContent`. -/
theorem C8_detect_fail_soft :
    detectEncoding none = "utf8" ∧
    ∀ content : List Nat, detectEncoding (some content) = detectFromContent content :=
  ⟨rfl, fun _ => rfl⟩

/-- C10: for every call with stop < start, readFileWithEncoding raises the
RangeError thrown by allocating the negative-length buffer, before any byte
of the file is read — the same error surfaces whether or not the file even
exists. -/
theorem C10_negative_window (env : GbDecoders) (file : Option (List Nat))
    (start : Nat) (stop : Int) (enc : String) (h : stop < (start : Int)) :
    readFileWithEncoding env file start stop enc = .error .rangeError := by
  unfold readFileWithEncoding
  rw [if_pos (by omega)]

/-- C10 witness: a concrete negative window fails with the allocation
RangeError even though the file exists. -/
theorem C10_negative_window_witness :
    readFileWithEncoding concreteGb (some [97]) 3 1 "utf8" = .error .rangeError :=
  C10_negative_window concreteGb (some [97]) 3 1 "utf8" (by decide)

/-- C4: a leading EF BB BF makes detectEncoding return utf8 regardless of
all subsequent bytes; likewise FF FE yields utf16le and FE FF yields
utf16be; the matched BOM short-circuits the statistical and trial-decode
analysis, as the quantification over the arbitrary tail shows. -/
theorem C4_bom_dominance (t : List Nat) :
    detectFromContent (0xEF :: 0xBB :: 0xBF :: t) = "utf8" ∧
    detectFromContent (0xFF :: 0xFE :: t) = "utf16le" ∧
    detectFromContent (0xFE :: 0xFF :: t) = "utf16be" := by
  refine ⟨?_, ?_, ?_⟩ <;>
    simp [detectFromContent, readWindow, List.take_succ_cons, List.getD_cons_zero,
      List.getD_cons_succ]

/-- C7 counterexample: a range lying entirely past end-of-file does not
raise: on a one-byte file, requesting bytes [2,3) succeeds, the unread
buffer stays zero-filled, and the NUL byte falls through the fallback
search to the hex rendering 00. -/
theorem C7_counterexample :
    readFileWithEncoding concreteGb (some [97]) 2 3 "utf8" = .ok ([48, 48], "hex") := by
  unfold readFileWithEncoding
  rw [if_neg (by norm_num)]
  show Except.ok (readBody concreteGb [0] "utf8") = _
  rw [readBody_slow concreteGb [0] "utf8" [0] rfl (by rw [q_nul_single]; norm_num)]
  rw [tryOther_hex_of_all_le concreteGb [0] "utf8" (by
    intro e he d hd
    have := all_le_zero_buf0 e he
    rw [hd] at this
    exact this)]
  rfl

/-- C7 amended: a genuine open failure (file missing or unreadable)
propagates as an explicit I/O error, and decoding never raises; but a
window lying past end-of-file is not an I/O failure: Node readSync
transfers zero bytes there, the zero-filled buffer is decoded, and the call
returns successfully. -/
theorem C7_io_failure (env : GbDecoders) (start : Nat) (stop : Int) (enc : String)
    (h : (start : Int) ≤ stop) :
    readFileWithEncoding env none start stop enc = .error .ioError ∧
    ∀ content : List Nat,
      (readFileWithEncoding env (some content) start stop enc).isOk = true := by
  constructor
  · unfold readFileWithEncoding
    rw [if_neg (by omega)]
  · intro content
    unfold readFileWithEncoding
    rw [if_neg (by omega)]
    rfl

/-- C7 witness: at a concrete in-range window, the missing file raises the
I/O error and the present file returns successfully. -/
theorem C7_io_failure_witness :
    readFileWithEncoding concreteGb none 0 1 "utf8" = .error .ioError ∧
    (readFileWithEncoding concreteGb (some [97]) 0 1 "utf8").isOk = true :=
  ⟨(C7_io_failure concreteGb 0 1 "utf8" (by decide)).1,
   (C7_io_failure concreteGb 0 1 "utf8" (by decide)).2 [97]⟩

/-- C9: the empty window readFileWithEncoding(path, 0, 0, utf8) on an
existing readable file returns the empty string without error (the empty
buffer scores 0 under every candidate, so the result carries the hex label
with empty text), provided the GB decoders decode the empty buffer to the
empty string as the real iconv-lite codecs do. -/
theorem C9_empty_window (env : GbDecoders) (content : List Nat)
    (h1 : env.gb2312 [] = []) (h2 : env.gbk [] = []) (h3 : env.gb18030 [] = []) :
    readFileWithEncoding env (some content) 0 0 "utf8" = .ok ([], "hex") := by
  unfold readFileWithEncoding
  rw [if_neg (by norm_num)]
  show Except.ok (readBody env [] "utf8") = _
  rw [readBody_slow env [] "utf8" [] rfl (by norm_num [evaluateDecodingQuality])]
  rw [tryOther_hex_of_all_le env [] "utf8" (by
    intro e he d hd
    fin_cases he
    · rw [show decodeVia env [] "gb2312" = some (env.gb2312 []) from rfl, h1] at hd
      injection hd with hdd
      subst hdd
      exact le_refl 0
    · rw [show decodeVia env [] "gbk" = some (env.gbk []) from rfl, h2] at hd
      injection hd with hdd
      subst hdd
      exact le_refl 0
    · rw [show decodeVia env [] "gb18030" = some (env.gb18030 []) from rfl, h3] at hd
      injection hd with hdd
      subst hdd
      exact le_refl 0
    · rw [show decodeVia env [] "utf8" = some [] from rfl] at hd
      injection hd with hdd
      subst hdd
      exact le_refl 0
    · rw [show decodeVia env [] "utf16le" = some [] from rfl] at hd
      injection hd with hdd
      subst hdd
      exact le_refl 0
    · rw [show decodeVia env [] "utf16be" = some [] from rfl] at hd
      injection hd with hdd
      subst hdd
      exact le_refl 0
    · rw [show decodeVia env [] "latin1" = some [] from rfl] at hd
      injection hd with hdd
      subst hdd
      exact le_refl 0
    · rw [show decodeVia env [] "ascii" = some [] from rfl] at hd
      injection hd with hdd
      subst hdd
      exact le_refl 0
    · rw [show decodeVia env [] "utf8mb4" = none from rfl] at hd
      exact absurd hd (by simp))]
  rfl

/-- C9 witness: the empty window on a concrete two-byte file returns empty
text without error. -/
theorem C9_empty_window_witness :
    readFileWithEncoding concreteGb (some [97, 98]) 0 0 "utf8" = .ok ([], "hex") :=
  C9_empty_window concreteGb [97, 98] rfl rfl rfl

/-- C1: whenever neither the hint encoding nor any fallback candidate
yields a quality score strictly greater than the initial sentinel 0, the
decoding part of readFileWithEncoding cannot raise (it is a total function)
and returns the bytes rendered as a hexadecimal string under the terminal
hex label. -/
theorem C1_hex_fallback (env : GbDecoders) (buf : List Nat) (enc : String)
    (hhint : (decodeVia env buf enc).elim True
      (fun c => evaluateDecodingQuality c ≤ 0))
    (hall : ∀ e ∈ fallbackEncodings, (decodeVia env buf e).elim True
      (fun c => evaluateDecodingQuality c ≤ 0)) :
    readBody env buf enc = (hexString buf, "hex") := by
  have hall' : ∀ e ∈ fallbackEncodings, ∀ d, decodeVia env buf e = some d →
      evaluateDecodingQuality d ≤ 0 := by
    intro e he d hd
    have := hall e he
    rw [hd] at this
    exact this
  cases hdec : decodeVia env buf enc with
  | none => rw [readBody_none env buf enc hdec]; exact tryOther_hex_of_all_le env buf enc hall'
  | some c =>
    have hc : evaluateDecodingQuality c ≤ 0 := by rw [hdec] at hhint; exact hhint
    rw [readBody_slow env buf enc c hdec (not_lt.mpr (le_trans hc (by norm_num)))]
    exact tryOther_hex_of_all_le env buf enc hall'

/-- C1 witness: the single NUL byte decodes under every candidate with
score 0, so the result is its hex rendering 00 under the hex label. -/
theorem C1_hex_fallback_witness :
    readBody concreteGb [0] "utf8" = (hexString [0], "hex") :=
  C1_hex_fallback concreteGb [0] "utf8" (le_of_eq q_nul_single) all_le_zero_buf0

/-- C5: the quality scorer always lands in [0,1]; the empty string scores
0; and on non-empty input it equals validRatio + 0.5 × chineseRatio − 0.8 ×
controlRatio clamped to [0,1], where the counts classify every UTF-16 code
unit as the claim describes (NUL ignored, controls below 32 except 9/10/13,
CJK ideographs valid and Chinese, printable ASCII and Latin-1 supplement
valid, everything else uncounted). -/
theorem C5_quality_scorer :
    (∀ s : JSStr, 0 ≤ evaluateDecodingQuality s ∧ evaluateDecodingQuality s ≤ 1) ∧
    evaluateDecodingQuality [] = 0 ∧
    (∀ s : JSStr, s ≠ [] →
      evaluateDecodingQuality s =
        max 0 (min 1 ((specValidCount s : ℚ) / (s.length : ℚ)
          + (0.5 : ℚ) * ((specChineseCount s : ℚ) / (s.length : ℚ))
          - (0.8 : ℚ) * ((specControlCount s : ℚ) / (s.length : ℚ))))) := by
  refine ⟨fun s => ⟨evaluateDecodingQuality_nonneg s, evaluateDecodingQuality_le_one s⟩,
    rfl, ?_⟩
  intro s hs
  rw [evaluateDecodingQuality_eq s hs]
  congr 1
  congr 1
  ring

/-- C5 witness: the formula instantiated at the single character a. -/
theorem C5_quality_scorer_witness :
    evaluateDecodingQuality [97] =
      max 0 (min 1 ((specValidCount [97] : ℚ) / (([97] : JSStr).length : ℚ)
        + (0.5 : ℚ) * ((specChineseCount [97] : ℚ) / (([97] : JSStr).length : ℚ))
        - (0.8 : ℚ) * ((specControlCount [97] : ℚ) / (([97] : JSStr).length : ℚ)))) :=
  C5_quality_scorer.2.2 [97] (by decide)

/-- C6: with a supported hint encoding that decodes, readFileWithEncoding
returns the hint decoding unchanged under the hint label when it scores
strictly above 0.5; otherwise it runs the fallback search over exactly the
eight-candidate priority list gb2312, gbk, gb18030, utf8, utf16le, utf16be,
latin1, ascii in order (the ninth source entry utf8mb4 always throws and is
skipped), skipping the hint, where only a strictly greater score displaces
the current best — so the earliest candidate to reach the final score wins
ties — and the returned best score bounds the score of every candidate. -/
theorem C6_fallback_structure (env : GbDecoders) (buf : List Nat) (enc : String)
    (c : JSStr) (hdec : decodeVia env buf enc = some c) :
    ((0.5 : ℚ) < evaluateDecodingQuality c → readBody env buf enc = (c, enc)) ∧
    (¬ (0.5 : ℚ) < evaluateDecodingQuality c →
      readBody env buf enc =
        ((specFallbackSearch env buf enc).1, (specFallbackSearch env buf enc).2.2) ∧
      ∀ e ∈ specFallbackList, e ≠ enc → ∀ d, decodeVia env buf e = some d →
        evaluateDecodingQuality d ≤ (specFallbackSearch env buf enc).2.1) := by
  constructor
  · intro hq
    unfold readBody
    rw [hdec]
    exact if_pos hq
  · intro hq
    refine ⟨?_, ?_⟩
    · rw [readBody_slow env buf enc c hdec hq]
      unfold tryOtherEncodings
      rw [tryOtherEncodingsFull_eq_spec]
    · intro e he hne d hd
      exact tryFold_ub env buf enc specFallbackList _ e he hne d hd

/-- C6 witness: the fast path at a concrete ASCII byte under the utf8
hint. -/
theorem C6_fallback_structure_witness :
    readBody concreteGb [97] "utf8" = ([97], "utf8") :=
  (C6_fallback_structure concreteGb [97] "utf8" [97] rfl).1 half_lt_q_97

/-- C2 counterexample: on a 2048-byte all-ASCII file the scored
trial decode picks gbk (a genuine GB decoder maps pure ASCII to itself, so
the highest-scoring non-utf8 candidate gbk scores 1, above 0.3), the input
reaches the trial step (no BOM and both statistical counters are zero), yet
detectEncoding returns utf8: the source decodes the trial candidates with
Buffer.toString, which throws for gbk and gb18030, so no non-utf8 candidate
is ever scored. -/
theorem C2_counterexample :
    specTrialDecode concreteGb (List.replicate 2048 97) = "gbk" ∧
    sampleStats ((List.replicate 2048 97).take 2048) = (0, 0) ∧
    detectFromContent (List.replicate 2048 97) = "utf8" := by
  refine ⟨?_, sampleStats_replicate_97, ?_⟩
  · have hmap : concreteGb.gbk (List.replicate 2048 97) = List.replicate 2048 97 := by
      show (List.replicate 2048 97).map (fun b => if b < 0x80 then b else 0xFFFD) =
        List.replicate 2048 97
      rw [List.map_replicate]
      norm_num
    have hmap18 : concreteGb.gb18030 (List.replicate 2048 97) = List.replicate 2048 97 := by
      show (List.replicate 2048 97).map (fun b => if b < 0x80 then b else 0xFFFD) =
        List.replicate 2048 97
      rw [List.map_replicate]
      norm_num
    unfold specTrialDecode
    rw [hmap, hmap18, q_replicate_97 2048 (by norm_num)]
    norm_num
  · refine detect_step3_utf8 _ (by decide) (by decide) (by decide) ?_ ?_ ?_
    · rw [List.take_replicate]
      norm_num
    · rw [sampleStats_replicate_97]
      norm_num
    · rw [sampleStats_replicate_97]
      norm_num

/-- C2 amended: when no BOM matches and neither statistical rule fires,
detectEncoding returns the default utf8 unconditionally: its trial decode
calls Buffer.toString, which does not support gbk or gb18030, so both
throws are caught and skipped, only utf8 is ever scored, and the
best-candidate label can never differ from utf8. -/
theorem C2_trial_decode_returns_utf8 (content : List Nat)
    (hb1 : ¬((readWindow content 0 4).getD 0 0 = 0xEF ∧
      (readWindow content 0 4).getD 1 0 = 0xBB ∧
      (readWindow content 0 4).getD 2 0 = 0xBF))
    (hb2 : ¬((readWindow content 0 4).getD 0 0 = 0xFF ∧
      (readWindow content 0 4).getD 1 0 = 0xFE))
    (hb3 : ¬((readWindow content 0 4).getD 0 0 = 0xFE ∧
      (readWindow content 0 4).getD 1 0 = 0xFF))
    (hlen : 0 < (content.take 2048).length)
    (hc1 : ¬((0.15 : ℚ) < ((sampleStats (content.take 2048)).1 : ℚ) /
        (((content.take 2048).length : Nat) : ℚ) ∧
      (0.08 : ℚ) < ((sampleStats (content.take 2048)).2 : ℚ) /
        ((max 1 ((content.take 2048).length / 2) : Nat) : ℚ)))
    (hc2 : ¬((0.25 : ℚ) < ((sampleStats (content.take 2048)).1 : ℚ) /
        (((content.take 2048).length : Nat) : ℚ))) :
    detectFromContent content = "utf8" :=
  detect_step3_utf8 content hb1 hb2 hb3 hlen hc1 hc2

/-- C2 witness: a concrete 8-byte ASCII file reaches the trial step and is
detected as utf8. -/
theorem C2_trial_decode_returns_utf8_witness :
    detectFromContent (List.replicate 8 0x41) = "utf8" :=
  C2_trial_decode_returns_utf8 (List.replicate 8 0x41) (by decide) (by decide) (by decide)
    (by decide) c2_witness_cond.1 c2_witness_cond.2

/-- C3 counterexample: on the 8-byte buffer 81 80 61 61 61 61 61 61 the
claimed reading of the statistics fires the first rule (two of eight bytes
are at or above 0x80, giving highByteRatio 1/4 > 0.15, and the matched pair
gives pairRatio 1/4 > 0.08), yet detectEncoding returns utf8: the scanner
consumes the trail byte 0x80 of the matched pair, counts only one high
byte, computes highByteRatio 1/8 ≤ 0.15, and neither rule fires. -/
theorem C3_counterexample :
    ((0.15 : ℚ) < (claimHighByteCount [0x81, 0x80, 97, 97, 97, 97, 97, 97] : ℚ) /
        (([0x81, 0x80, 97, 97, 97, 97, 97, 97] : List Nat).length : ℚ) ∧
      (0.08 : ℚ) < ((sampleStats [0x81, 0x80, 97, 97, 97, 97, 97, 97]).2 : ℚ) /
        ((max 1 (([0x81, 0x80, 97, 97, 97, 97, 97, 97] : List Nat).length / 2) : Nat) : ℚ)) ∧
    detectFromContent [0x81, 0x80, 97, 97, 97, 97, 97, 97] = "utf8" := by
  constructor
  · rw [show claimHighByteCount [0x81, 0x80, 97, 97, 97, 97, 97, 97] = 2 from rfl,
      show (sampleStats [0x81, 0x80, 97, 97, 97, 97, 97, 97]).2 = 1 from rfl,
      show ([0x81, 0x80, 97, 97, 97, 97, 97, 97] : List Nat).length = 8 from rfl]
    norm_num
  · refine detect_step3_utf8 _ (by decide) (by decide) (by decide) (by decide) ?_ ?_
    · rw [show sampleStats (([0x81, 0x80, 97, 97, 97, 97, 97, 97] : List Nat).take 2048)
          = (1, 1) from rfl,
        show (([0x81, 0x80, 97, 97, 97, 97, 97, 97] : List Nat).take 2048).length = 8 from rfl]
      norm_num
    · rw [show sampleStats (([0x81, 0x80, 97, 97, 97, 97, 97, 97] : List Nat).take 2048)
          = (1, 1) from rfl,
        show (([0x81, 0x80, 97, 97, 97, 97, 97, 97] : List Nat).take 2048).length = 8 from rfl]
      norm_num

/-- C3 amended: over the up-to-2048-byte sample the scanner counts a byte
at or above 0x80 as a high byte only when it is not consumed as the trail
of a matched GBK pair (lead 0x81-0xFE followed by trail 0x40-0xFE counts
one pair and skips the trail byte entirely); with those counts,
highByteRatio = highBytes/totalBytes and pairRatio =
matchedPairs/max(1, floor(totalBytes/2)), and detectEncoding returns the
GBK family label when highByteRatio > 0.15 and pairRatio > 0.08, and also
when highByteRatio > 0.25 alone, provided no BOM matched. -/
theorem C3_statistical_gbk (content : List Nat)
    (hb1 : ¬((readWindow content 0 4).getD 0 0 = 0xEF ∧
      (readWindow content 0 4).getD 1 0 = 0xBB ∧
      (readWindow content 0 4).getD 2 0 = 0xBF))
    (hb2 : ¬((readWindow content 0 4).getD 0 0 = 0xFF ∧
      (readWindow content 0 4).getD 1 0 = 0xFE))
    (hb3 : ¬((readWindow content 0 4).getD 0 0 = 0xFE ∧
      (readWindow content 0 4).getD 1 0 = 0xFF))
    (hlen : 0 < (content.take 2048).length)
    (hcond :
      ((0.15 : ℚ) < ((sampleStats (content.take 2048)).1 : ℚ) /
          (((content.take 2048).length : Nat) : ℚ) ∧
        (0.08 : ℚ) < ((sampleStats (content.take 2048)).2 : ℚ) /
          ((max 1 ((content.take 2048).length / 2) : Nat) : ℚ)) ∨
      (0.25 : ℚ) < ((sampleStats (content.take 2048)).1 : ℚ) /
        (((content.take 2048).length : Nat) : ℚ)) :
    detectFromContent content = "gbk" := by
  simp only [detectFromContent]
  rw [if_neg hb1, if_neg hb2, if_neg hb3, if_pos hlen]
  rcases hcond with hfirst | hsecond
  · rw [if_pos hfirst]
  · by_cases hfirst : (0.15 : ℚ) < ((sampleStats (content.take 2048)).1 : ℚ) /
        (((content.take 2048).length : Nat) : ℚ) ∧
      (0.08 : ℚ) < ((sampleStats (content.take 2048)).2 : ℚ) /
        ((max 1 ((content.take 2048).length / 2) : Nat) : ℚ)
    · rw [if_pos hfirst]
    · rw [if_neg hfirst, if_pos hsecond]

/-- C3 witness: sixteen 0x81 bytes fire the first statistical rule and are
detected as the GBK family. -/
theorem C3_statistical_gbk_witness :
    detectFromContent (List.replicate 16 0x81) = "gbk" :=
  C3_statistical_gbk (List.replicate 16 0x81) (by decide) (by decide) (by decide)
    (by decide) (Or.inl c3_witness_cond)

end EncodingUtils
